import Mathlib

/-!
Shallow embedding of the b2b-server lobby/queue/advance engine
(`src/unnamed/part_000`, the Socket.IO server document: interfaces `Track`,
`User`, `Lobby`; the maps `lobbyAdvanceTimers` and `lobbyProcessingLocks`;
the functions `scheduleTrackAdvance` and `advanceToNextTrack`; and the
socket handlers `criar_lobby`, `entrar_lobby`, `adicionar_faixa`,
`musica_terminou`, `remover_faixa`, `disconnect`).

The model is per-lobby: all global maps are keyed by lobby id and every
handler resolves a single lobby, so one `LobbyState` carries that lobby's
users, queue, its `lobbyAdvanceTimers` entry (`stored`) together with the
multiset of JavaScript timeouts still outstanding for it (`pending`), its
`lobbyProcessingLocks` entry (`lock`), and whether the lobby has been
deleted from `lobbies`.  `Date.now()` is modelled by an explicit clock
stream `clock : Nat → Int` read at index `timeIdx`, one read per call site.
Emitted socket events (both broadcasts and to-sender errors) are appended
to `events` in order.
-/

set_option linter.unusedVariables false

namespace B2B

/-- `type UserRole = 'dj' | 'spectator'`. -/
inductive UserRole where
  | dj
  | spectator
deriving DecidableEq

/-- `interface Track` — catalog id, display fields, optional media fields,
`startTime` (ms timestamp, set by the server) and `duration` (seconds,
possibly absent or non-positive). -/
structure Track where
  id : String
  title : String
  artist : String
  uri : String
  albumArt : Option String
  previewUrl : Option String
  source : Option String
  streamUrl : Option String
  startTime : Option Int
  duration : Option Int
deriving DecidableEq

/-- `interface User` — socket id, display name, role. -/
structure User where
  id : String
  name : String
  role : UserRole
deriving DecidableEq

/-- A JavaScript timeout created by `setTimeout` in `scheduleTrackAdvance`:
its handle and the absolute time at which it is due to fire. -/
structure Timer where
  id : Nat
  deadline : Int
deriving DecidableEq

/-- Socket events emitted by the handlers (broadcasts and to-sender errors),
recorded in emission order. -/
inductive Event where
  | filaAtualizada (queue : List Track)
  | erroLobby (msg : String)
  | usuarioEntrou (u : User)
  | usuarioSaiu (u : User)
  | lobbyCriado
  | lobbyEntrou
deriving DecidableEq

/-- The full per-lobby server state.  `stored` is this lobby's entry in
`lobbyAdvanceTimers`; `pending` lists every `setTimeout` created for this
lobby and not yet fired or cleared; `lock` is this lobby's entry in
`lobbyProcessingLocks`; `deleted` records `delete lobbies[lobby.id]`. -/
structure LobbyState where
  users : List User
  queue : List Track
  pending : List Timer
  stored : Option Nat
  lock : Bool
  deleted : Bool
  nextTimerId : Nat
  timeIdx : Nat
  clock : Nat → Int
  events : List Event

/-- One `Date.now()` call: read the clock stream and advance the read index. -/
def readNow (s : LobbyState) : Int × LobbyState :=
  (s.clock s.timeIdx, { s with timeIdx := s.timeIdx + 1 })

/-- JavaScript truthiness of `track.startTime`: `!track.startTime` holds when
the field is absent or zero. -/
def startTimeFalsy : Option Int → Bool
  | none => true
  | some t => t == 0

/-- The guard `!track.duration || track.duration <= 0` of
`scheduleTrackAdvance`: absent, zero or negative. -/
def durationFalsyOrNonpos : Option Int → Bool
  | none => true
  | some d => d ≤ 0

/-- `lobby.users.find(u => u.id === socketId)` as used by `findLobbyAndUser`. -/
def findUser (users : List User) (sid : String) : Option User :=
  users.find? (fun u => u.id == sid)

/-- `clearTimeout(existingTimer); lobbyAdvanceTimers.delete(lobbyId)` —
the cancellation prologue of `scheduleTrackAdvance` (and the timer cleanup
in `disconnect`). -/
def cancelStoredTimer (s : LobbyState) : LobbyState :=
  match s.stored with
  | some h => { s with pending := s.pending.filter (fun t => t.id != h), stored := none }
  | none => s

/-- `lobby.queue[0].startTime = Date.now()` — restamp the head track. -/
def stampHead (now : Int) : List Track → List Track
  | [] => []
  | t :: rest => { t with startTime := some now } :: rest

/-- Selector for the two mutually recursive engine functions. -/
inductive EngineMode where
  | advance
  | schedule
deriving DecidableEq

/-- The advance engine: `EngineMode.advance` is `advanceToNextTrack(lobbyId)`
and `EngineMode.schedule` is `scheduleTrackAdvance(lobbyId, lobby.queue[0])`
(every call site passes the current queue head).  The two functions call
each other (`scheduleTrackAdvance` advances immediately on a zero remainder,
`advanceToNextTrack` re-arms the scheduler for the new head), so the pair is
written as one function structurally recursive on a fuel bound; with fuel
`0` it returns the state unchanged, and every theorem supplies enough fuel.

`advance` steps, as in the source: return if the lobby is gone, if the
processing lock is set, or if the queue is empty; set the lock; drop the
head; if tracks remain, stamp the new head with `Date.now()` and re-arm;
broadcast `fila_atualizada`.  The lock is *not* cleared here — the source
schedules its removal one second later (`clearLock` below).

`schedule` steps: cancel and delete any stored timer; default a falsy or
non-positive `duration` to `240`; default a falsy `startTime` to
`Date.now()`; compute `remaining = max(0, duration*1000 - (Date.now() -
startTime))`; if `remaining ≤ 0` advance immediately, else create a timeout
due at `now + remaining` and store its handle as the lobby's timer. -/
def engineStep : Nat → EngineMode → LobbyState → LobbyState
  | 0, _, s => s
  | fuel + 1, EngineMode.advance, s =>
    if s.deleted then s
    else if s.lock then s
    else
      match s.queue with
      | [] => s
      | _ :: rest =>
        let s1 := { s with lock := true, queue := rest }
        let s2 :=
          if rest.isEmpty then s1
          else
            let p := readNow s1
            engineStep fuel EngineMode.schedule
              { p.2 with queue := stampHead p.1 p.2.queue }
        { s2 with events := s2.events ++ [Event.filaAtualizada s2.queue] }
  | fuel + 1, EngineMode.schedule, s =>
    let s1 := cancelStoredTimer s
    match s1.queue with
    | [] => s1
    | tr :: rest =>
      let tr1 := if durationFalsyOrNonpos tr.duration then { tr with duration := some 240 } else tr
      let q :=
        if startTimeFalsy tr1.startTime then
          let p := readNow s1
          ({ tr1 with startTime := some p.1 }, p.2)
        else (tr1, s1)
      let s3 := { q.2 with queue := q.1 :: rest }
      let p2 := readNow s3
      let remaining := max 0 (1000 * q.1.duration.getD 240 - (p2.1 - q.1.startTime.getD 0))
      if remaining ≤ 0 then
        engineStep fuel EngineMode.advance p2.2
      else
        { p2.2 with
            pending := p2.2.pending ++ [⟨p2.2.nextTimerId, p2.1 + remaining⟩],
            stored := some p2.2.nextTimerId,
            nextTimerId := p2.2.nextTimerId + 1 }

/-- `advanceToNextTrack(lobbyId)`. -/
def advanceToNextTrack (fuel : Nat) (s : LobbyState) : LobbyState :=
  engineStep fuel EngineMode.advance s

/-- `scheduleTrackAdvance(lobbyId, lobby.queue[0])`. -/
def scheduleTrackAdvance (fuel : Nat) (s : LobbyState) : LobbyState :=
  engineStep fuel EngineMode.schedule s

/-- The deferred `lobbyProcessingLocks.delete(lobbyId)` that
`advanceToNextTrack` schedules one second after its broadcast (the
cool-down that ends the debounce window). -/
def clearLock (s : LobbyState) : LobbyState :=
  { s with lock := false }

/-- A stored timeout fires: the handle must still be outstanding; the
callback runs `advanceToNextTrack(lobbyId)` and then
`lobbyAdvanceTimers.delete(lobbyId)` — in that order, as in the source. -/
def fireTimer (fuel : Nat) (h : Nat) (s : LobbyState) : LobbyState :=
  if s.pending.any (fun t => t.id == h) then
    let s1 := { s with pending := s.pending.filter (fun t => t.id != h) }
    let s2 := advanceToNextTrack fuel s1
    { s2 with stored := none }
  else s

/-- JavaScript `String.prototype.trim()`: strip leading and trailing
whitespace.  (Written by structural recursion on the character list so
that it evaluates inside the kernel.) -/
def jsTrim (s : String) : String :=
  String.mk (((s.data.dropWhile Char.isWhitespace).reverse.dropWhile Char.isWhitespace).reverse)

/-- The `criar_lobby` handler: reject a blank name, otherwise create the
lobby with the creator as sole dj and an empty queue.  (The generated
`uuidv4()` lobby id is implicit in the per-lobby model.) -/
def criarLobby (sid userName : String) (clock : Nat → Int) : Option LobbyState :=
  if jsTrim userName = "" then none
  else some
    { users := [⟨sid, jsTrim userName, UserRole.dj⟩]
      queue := []
      pending := []
      stored := none
      lock := false
      deleted := false
      nextTimerId := 0
      timeIdx := 0
      clock := clock
      events := [Event.lobbyCriado] }

/-- The `entrar_lobby` handler restricted to this lobby (an invalid or
unknown lobby id only emits an error to the sender and touches no lobby):
reject a blank name, reject when the lobby no longer exists, otherwise
assign dj iff fewer than two current users hold dj, and append the user. -/
def entrarLobby (sid userName : String) (s : LobbyState) : LobbyState :=
  if jsTrim userName = "" then
    { s with events := s.events ++ [Event.erroLobby "Nome de usuário inválido."] }
  else if s.deleted then
    { s with events := s.events ++ [Event.erroLobby "O lobby não foi encontrado."] }
  else
    let djCount := (s.users.filter (fun u => u.role == UserRole.dj)).length
    let role := if djCount < 2 then UserRole.dj else UserRole.spectator
    let newUser : User := ⟨sid, jsTrim userName, role⟩
    { s with
        users := s.users ++ [newUser]
        events := s.events ++ [Event.usuarioEntrou newUser, Event.lobbyEntrou] }

/-- The `adicionar_faixa` handler: error to sender when the sender is in no
lobby, is not a dj, or the track id is already queued; otherwise push the
track, and — when it is now the only queued track — stamp its `startTime`
with `Date.now()` and arm the scheduler; finally broadcast the queue. -/
def adicionarFaixa (fuel : Nat) (sid : String) (track : Track) (s : LobbyState) : LobbyState :=
  match findUser s.users sid with
  | none => { s with events := s.events ++ [Event.erroLobby "Você não está em nenhum lobby."] }
  | some u =>
    if u.role ≠ UserRole.dj then
      { s with events := s.events ++ [Event.erroLobby "Apenas DJs podem adicionar músicas."] }
    else if s.queue.any (fun t => t.id == track.id) then
      { s with events := s.events ++ [Event.erroLobby "Esta música já está na fila."] }
    else
      let s1 := { s with queue := s.queue ++ [track] }
      let s2 :=
        if s1.queue.length = 1 then
          let p := readNow s1
          scheduleTrackAdvance fuel { p.2 with queue := stampHead p.1 p.2.queue }
        else s1
      { s2 with events := s2.events ++ [Event.filaAtualizada s2.queue] }

/-- The `musica_terminou` (client fallback `track_ended`) handler: ignored
when the sender is in no lobby; ignored when `lobbyAdvanceTimers` holds a
timer for the lobby; otherwise it invokes `advanceToNextTrack` directly. -/
def musicaTerminou (fuel : Nat) (sid : String) (s : LobbyState) : LobbyState :=
  match findUser s.users sid with
  | none => s
  | some _ =>
    if s.stored.isSome then s
    else advanceToNextTrack fuel s

/-- The `remover_faixa` handler: silently ignored when the sender is in no
lobby or is not a dj; otherwise drop every queued track with the given id;
when the head was removed and tracks remain, restamp the new head, clear
the stored timeout (the source calls `clearTimeout` here without deleting
the map entry) and re-arm the scheduler; finally broadcast the queue. -/
def removerFaixa (fuel : Nat) (sid trackId : String) (s : LobbyState) : LobbyState :=
  match findUser s.users sid with
  | none => s
  | some u =>
    if u.role ≠ UserRole.dj then s
    else
      let wasFirstTrack :=
        match s.queue.head? with
        | some t => t.id == trackId
        | none => false
      let s1 := { s with queue := s.queue.filter (fun t => t.id != trackId) }
      let s2 :=
        if wasFirstTrack && !s1.queue.isEmpty then
          let p := readNow s1
          let sB := { p.2 with queue := stampHead p.1 p.2.queue }
          let sC :=
            match sB.stored with
            | some h => { sB with pending := sB.pending.filter (fun t => t.id != h) }
            | none => sB
          scheduleTrackAdvance fuel sC
        else s1
      { s2 with events := s2.events ++ [Event.filaAtualizada s2.queue] }

/-- The `disconnect` handler: remove the user, notify the lobby, clear this
lobby's stored timer (the source does this unconditionally), and delete the
lobby when no users remain. -/
def disconnect (sid : String) (s : LobbyState) : LobbyState :=
  match findUser s.users sid with
  | none => s
  | some u =>
    let s1 := { s with
        users := s.users.filter (fun v => v.id != u.id)
        events := s.events ++ [Event.usuarioSaiu u] }
    let s2 := cancelStoredTimer s1
    if s2.users.isEmpty then { s2 with deleted := true } else s2

/-- Every state transition a live lobby can undergo after creation:
the socket handlers, a stored timeout firing, and the deferred
lock-cooldown expiry. -/
inductive Op where
  | entrar (sid name : String)
  | adicionar (fuel : Nat) (sid : String) (track : Track)
  | remover (fuel : Nat) (sid trackId : String)
  | terminou (fuel : Nat) (sid : String)
  | fire (fuel : Nat) (h : Nat)
  | disc (sid : String)
  | coolDown

/-- Apply one transition. -/
def applyOp : Op → LobbyState → LobbyState
  | Op.entrar sid name, s => entrarLobby sid name s
  | Op.adicionar fuel sid track, s => adicionarFaixa fuel sid track s
  | Op.remover fuel sid trackId, s => removerFaixa fuel sid trackId s
  | Op.terminou fuel sid, s => musicaTerminou fuel sid s
  | Op.fire fuel h, s => fireTimer fuel h s
  | Op.disc sid, s => disconnect sid s
  | Op.coolDown, s => clearLock s

/-- Apply a sequence of transitions in order. -/
def applyOps (ops : List Op) (s : LobbyState) : LobbyState :=
  ops.foldl (fun acc op => applyOp op acc) s

/-- The queued catalog ids, in order. -/
def queueIds (s : LobbyState) : List String :=
  s.queue.map Track.id

/-- `lobby.users.filter(u => u.role === 'dj').length` from `entrar_lobby`. -/
def djCount (users : List User) : Nat :=
  (users.filter (fun u => u.role == UserRole.dj)).length

/-- The roles a departure-free lobby assigns by join position: positions 0
and 1 (the creator and the first joiner) get dj, everyone after spectator. -/
def rolePattern (n : Nat) : List UserRole :=
  (List.range n).map (fun i => if i < 2 then UserRole.dj else UserRole.spectator)

/-- Fold a list of `(socket id, name)` joins through `entrar_lobby`. -/
def joinAll (joins : List (String × String)) (s : LobbyState) : LobbyState :=
  joins.foldl (fun acc p => entrarLobby p.1 p.2 acc) s

/-- The effective duration `scheduleTrackAdvance` works with: the track's
own positive duration, else the 240-second default. -/
def effDuration (d : Option Int) : Int :=
  if durationFalsyOrNonpos d then 240 else d.getD 240

/-! ### Concrete states used by witnesses and counterexamples -/

/-- Build a track with only the engine-relevant fields populated. -/
def mkTrack (i : String) (st dur : Option Int) : Track :=
  ⟨i, i, "artist", "uri", none, none, none, none, st, dur⟩

/-- A lobby with one dj, an empty queue, no timers, constant clock. -/
def wBase : LobbyState :=
  { users := [⟨"a", "Alice", UserRole.dj⟩]
    queue := []
    pending := []
    stored := none
    lock := false
    deleted := false
    nextTimerId := 0
    timeIdx := 0
    clock := fun _ => 1000
    events := [] }

/-- Two queued tracks with an armed timer for the head. -/
def wTwo : LobbyState :=
  { wBase with
      queue := [mkTrack "t1" (some 500) (some 5), mkTrack "t2" none (some 180)]
      pending := [⟨0, 5500⟩]
      stored := some 0
      nextTimerId := 1 }

/-- Like `wTwo` but with the processing lock held. -/
def wLocked : LobbyState :=
  { wTwo with lock := true }

/-- Two queued tracks; the clock jumps by exactly the second track's
duration between the advance's restamp and the scheduler's own read, so
the re-arm computes a zero remainder. -/
def w3x : LobbyState :=
  { wBase with
      queue := [mkTrack "t1" (some 500) (some 5), mkTrack "t2" none (some 5)]
      pending := [⟨0, 5500⟩]
      stored := some 0
      nextTimerId := 1
      clock := fun i => if i = 0 then 1000 else 6000 }

/-- A single queued track with an armed timer, before its expiry. -/
def w4x : LobbyState :=
  { wBase with
      queue := [mkTrack "t1" (some 1000) (some 10)]
      pending := [⟨7, 11000⟩]
      stored := some 7
      nextTimerId := 8
      clock := fun _ => 2000 }

/-- Three queued tracks with an armed timer for the head. -/
def w5x : LobbyState :=
  { wBase with
      queue := [mkTrack "t1" (some 0) (some 5), mkTrack "t2" none (some 180),
                mkTrack "t3" none (some 200)]
      pending := [⟨0, 5000⟩]
      stored := some 0
      nextTimerId := 1 }

/-- Two users and an armed timer for the single queued track. -/
def w6x : LobbyState :=
  { wBase with
      users := [⟨"a", "Alice", UserRole.dj⟩, ⟨"b", "Bob", UserRole.dj⟩]
      queue := [mkTrack "t1" (some 1000) (some 100)]
      pending := [⟨0, 101000⟩]
      stored := some 0
      nextTimerId := 1
      clock := fun _ => 2000 }

/-- A spectator alongside a dj, one queued track. -/
def w8x : LobbyState :=
  { wBase with
      users := [⟨"c", "Carol", UserRole.spectator⟩, ⟨"a", "Alice", UserRole.dj⟩]
      queue := [mkTrack "t1" (some 1000) (some 10)] }

/-- The state `criar_lobby` builds for creator Alice (constant clock). -/
def wCreated : LobbyState :=
  { users := [⟨"a", "Alice", UserRole.dj⟩]
    queue := []
    pending := []
    stored := none
    lock := false
    deleted := false
    nextTimerId := 0
    timeIdx := 0
    clock := fun _ => 1000
    events := [Event.lobbyCriado] }

/-! ### Structural lemmas about the engine -/

theorem cancelStoredTimer_queue (s : LobbyState) :
    (cancelStoredTimer s).queue = s.queue := by
  cases hs : s.stored <;> simp [cancelStoredTimer, hs]

theorem cancelStoredTimer_lock (s : LobbyState) :
    (cancelStoredTimer s).lock = s.lock := by
  cases hs : s.stored <;> simp [cancelStoredTimer, hs]

theorem stampHead_length (now : Int) (q : List Track) :
    (stampHead now q).length = q.length := by
  cases q <;> rfl

theorem stampHead_map_id (now : Int) (q : List Track) :
    (stampHead now q).map Track.id = q.map Track.id := by
  cases q <;> rfl

/-- Step 1 of `advanceToNextTrack`: a set processing lock makes the call a
no-op, whatever the fuel. -/
theorem engineStep_advance_locked (fuel : Nat) (s : LobbyState) (h : s.lock = true) :
    engineStep fuel EngineMode.advance s = s := by
  cases fuel with
  | zero => rfl
  | succ n => simp [engineStep, h]

/-- `scheduleTrackAdvance` called while the lock is held (as it is from
inside an advance) keeps the lock held and the queue length unchanged:
its immediate-advance branch is blocked by the lock. -/
theorem engineStep_schedule_locked (fuel : Nat) (s : LobbyState) (h : s.lock = true) :
    (engineStep fuel EngineMode.schedule s).lock = true ∧
    (engineStep fuel EngineMode.schedule s).queue.length = s.queue.length := by
  cases fuel with
  | zero => exact ⟨h, rfl⟩
  | succ n =>
    cases hs : s.stored with
    | none =>
      cases hq : s.queue with
      | nil => simp [engineStep, cancelStoredTimer, hs, hq, h]
      | cons tr rest =>
        simp only [engineStep, cancelStoredTimer, hs, hq, readNow, h]
        split_ifs <;> simp [engineStep_advance_locked, hq, h]
    | some hdl =>
      cases hq : s.queue with
      | nil => simp [engineStep, cancelStoredTimer, hs, hq, h]
      | cons tr rest =>
        simp only [engineStep, cancelStoredTimer, hs, hq, readNow, h]
        split_ifs <;> simp [engineStep_advance_locked, hq, h]

theorem engineStep_schedule_locked_lock (fuel : Nat) (s : LobbyState) (h : s.lock = true) :
    (engineStep fuel EngineMode.schedule s).lock = true :=
  (engineStep_schedule_locked fuel s h).1

theorem engineStep_schedule_locked_length (fuel : Nat) (s : LobbyState) (h : s.lock = true) :
    (engineStep fuel EngineMode.schedule s).queue.length = s.queue.length :=
  (engineStep_schedule_locked fuel s h).2

/-- One invocation of `advanceToNextTrack` either leaves the state exactly
as it was (guarded, empty queue, deleted lobby, or no fuel) or dequeues
exactly the head track and leaves the processing lock held. -/
theorem engineStep_advance_cases (fuel : Nat) (s : LobbyState) :
    engineStep fuel EngineMode.advance s = s ∨
    ((engineStep fuel EngineMode.advance s).lock = true ∧
     (engineStep fuel EngineMode.advance s).queue.length + 1 = s.queue.length) := by
  cases fuel with
  | zero => exact Or.inl rfl
  | succ n =>
    by_cases hd : s.deleted = true
    · exact Or.inl (by simp [engineStep, hd])
    by_cases hl : s.lock = true
    · exact Or.inl (by simp [engineStep, hl])
    cases hq : s.queue with
    | nil =>
      refine Or.inl ?_
      simp [engineStep, hd, hl, hq]
    | cons tr rest =>
      refine Or.inr ?_
      cases hr : rest with
      | nil =>
        simp [engineStep, hd, hl, hq, hr]
      | cons t2 r2 =>
        simp only [engineStep, hd, hl, hq, hr, readNow]
        simp [engineStep_schedule_locked_lock, engineStep_schedule_locked_length,
              stampHead_length, hd, hl]

/-- The engine only drops tracks from the front of the queue and rewrites
head fields in place: the resulting id sequence is a suffix of the
original one. -/
theorem engineStep_ids_suffix (fuel : Nat) :
    ∀ (mode : EngineMode) (s : LobbyState),
      (engineStep fuel mode s).queue.map Track.id <:+ s.queue.map Track.id := by
  induction fuel with
  | zero => intro mode s; exact List.suffix_refl _
  | succ n ih =>
    intro mode s
    cases mode with
    | advance =>
      by_cases hd : s.deleted = true
      · simp [engineStep, hd]
      by_cases hl : s.lock = true
      · simp [engineStep, hl]
      cases hq : s.queue with
      | nil => simp [engineStep, hd, hl, hq]
      | cons tr rest =>
        cases hr : rest with
        | nil =>
          simp [engineStep, hd, hl, hq, hr]
        | cons t2 r2 =>
          simp only [engineStep, hd, hl, hq, hr, readNow]
          simp only [List.isEmpty_cons, Bool.false_eq_true, if_false, ite_false]
          refine List.IsSuffix.trans (ih EngineMode.schedule _) ?_
          simp [stampHead]
    | schedule =>
      cases hs : s.stored with
      | none =>
        cases hq : s.queue with
        | nil => simp [engineStep, cancelStoredTimer, hs, hq]
        | cons tr rest =>
          simp only [engineStep, cancelStoredTimer, hs, hq, readNow]
          split_ifs <;>
            first
              | (refine List.IsSuffix.trans (ih EngineMode.advance _) ?_; simp [hq])
              | simp [hq]
      | some hdl =>
        cases hq : s.queue with
        | nil => simp [engineStep, cancelStoredTimer, hs, hq]
        | cons tr rest =>
          simp only [engineStep, cancelStoredTimer, hs, hq, readNow]
          split_ifs <;>
            first
              | (refine List.IsSuffix.trans (ih EngineMode.advance _) ?_; simp [hq])
              | simp [hq]

/-! ### Claim theorems -/

/-- Claim C1: when the lobby's AdvanceGuard (`lobbyProcessingLocks` entry)
is set, `advanceToNextTrack` returns immediately with the state unchanged —
no queue change, no timer change, no broadcast; and two invocations of the
advance for the same lobby with no intervening cool-down expiry (the lock
set by the first is still in place for the second) dequeue at most one
track in total. -/
theorem claim1_advance_guard (fuel1 fuel2 : Nat) (s : LobbyState) :
    (s.lock = true → advanceToNextTrack fuel1 s = s) ∧
    s.queue.length ≤
      (advanceToNextTrack fuel2 (advanceToNextTrack fuel1 s)).queue.length + 1 := by
  constructor
  · intro h
    exact engineStep_advance_locked fuel1 s h
  · unfold advanceToNextTrack
    rcases engineStep_advance_cases fuel1 s with h1 | ⟨hl1, hlen1⟩
    · rw [h1]
      rcases engineStep_advance_cases fuel2 s with h2 | ⟨hl2, hlen2⟩
      · rw [h2]; omega
      · omega
    · rw [engineStep_advance_locked fuel2 _ hl1]
      omega

/-- Witness for C1: a concrete locked two-track lobby is left untouched,
and a double advance on it dequeues at most one track. -/
theorem claim1_advance_guard_witness :
    advanceToNextTrack 5 wLocked = wLocked ∧
    wLocked.queue.length ≤
      (advanceToNextTrack 5 (advanceToNextTrack 5 wLocked)).queue.length + 1 :=
  ⟨(claim1_advance_guard 5 5 wLocked).1 rfl, (claim1_advance_guard 5 5 wLocked).2⟩

/-- Claim C2: a `musica_terminou` fallback signal from a user who is in the
lobby is ignored (state unchanged) whenever `lobbyAdvanceTimers` holds a
timer for the lobby, and invokes `advanceToNextTrack` directly when no
timer is stored. -/
theorem claim2_fallback_signal (fuel : Nat) (sid : String) (s : LobbyState) (u : User)
    (hu : findUser s.users sid = some u) :
    (s.stored.isSome = true → musicaTerminou fuel sid s = s) ∧
    (s.stored = none → musicaTerminou fuel sid s = advanceToNextTrack fuel s) := by
  constructor
  · intro h
    simp [musicaTerminou, hu, h]
  · intro h
    simp [musicaTerminou, hu, h]

/-- Witness for C2: with a timer stored (`wTwo`) the fallback is a no-op;
with none stored (`w8x`) it performs the direct advance. -/
theorem claim2_fallback_signal_witness :
    musicaTerminou 5 "a" wTwo = wTwo ∧
    musicaTerminou 5 "a" w8x = advanceToNextTrack 5 w8x :=
  ⟨(claim2_fallback_signal 5 "a" wTwo ⟨"a", "Alice", UserRole.dj⟩ (by decide)).1 (by decide),
   (claim2_fallback_signal 5 "a" w8x ⟨"a", "Alice", UserRole.dj⟩ (by decide)).2 rfl⟩

/-- Counterexample to C3 as stated: in `w3x` the advance dequeues `t1`, and
at re-arm time the new head `t2` (duration 5 s, restamped at 1000) meets a
clock reading of 6000, so its computed remaining time is zero — yet the
queue still holds `t2` afterwards: the claimed synchronous second advance
does not dequeue it (the nested call returns against the held guard), and
no timer is armed. -/
theorem claim3_counterexample :
    (advanceToNextTrack 5 w3x).queue.map Track.id = ["t2"] ∧
    (advanceToNextTrack 5 w3x).stored = none ∧
    (advanceToNextTrack 5 w3x).pending = [] ∧
    max 0 (1000 * 5 - (w3x.clock 1 - w3x.clock 0)) = 0 := by
  refine ⟨?_, ?_, ?_, ?_⟩ <;> decide

/-- Claim C3 amended: when, after the head is dequeued, the new head's
computed remaining time is zero at re-arm time, the code does invoke a
second advance synchronously — but that call returns immediately because
the AdvanceGuard is still set, so the new head is NOT dequeued: it stays at
the head of the queue (restamped), and no timer is stored for the lobby. -/
theorem claim3_amended (fuel : Nat) (s : LobbyState) (t1 t2 : Track) (rest : List Track)
    (d : Int)
    (hlock : s.lock = false) (hdel : s.deleted = false)
    (hq : s.queue = t1 :: t2 :: rest)
    (hd : t2.duration = some d) (hdpos : 0 < d)
    (hn1 : s.clock s.timeIdx ≠ 0)
    (hjump : 1000 * d + s.clock s.timeIdx ≤ s.clock (s.timeIdx + 1)) :
    (advanceToNextTrack (fuel + 2) s).queue
        = { t2 with startTime := some (s.clock s.timeIdx) } :: rest ∧
    (advanceToNextTrack (fuel + 2) s).stored = none ∧
    (advanceToNextTrack (fuel + 2) s).lock = true := by
  have hdf : durationFalsyOrNonpos (some d) = false := by
    simp [durationFalsyOrNonpos]
    omega
  have hsf : startTimeFalsy (some (s.clock s.timeIdx)) = false := by
    simp [startTimeFalsy, hn1]
  have hrem : max 0 (1000 * d - (s.clock (s.timeIdx + 1) - s.clock s.timeIdx)) ≤ 0 := by
    have : 1000 * d - (s.clock (s.timeIdx + 1) - s.clock s.timeIdx) ≤ 0 := by omega
    omega
  cases hst : s.stored with
  | none =>
    unfold advanceToNextTrack
    simp only [engineStep, hdel, hlock, hq, readNow, List.isEmpty_cons, Bool.false_eq_true,
      if_false, stampHead, cancelStoredTimer, hst, hdf, hsf, hd, hrem, if_true,
      Option.getD_some]
    simp [engineStep_advance_locked, hdf, hsf, hrem, hd]
  | some hdl =>
    unfold advanceToNextTrack
    simp only [engineStep, hdel, hlock, hq, readNow, List.isEmpty_cons, Bool.false_eq_true,
      if_false, stampHead, cancelStoredTimer, hst, hdf, hsf, hd, hrem, if_true,
      Option.getD_some]
    simp [engineStep_advance_locked, hdf, hsf, hrem, hd]

/-- Witness for C3 amended, at the concrete state `w3x`. -/
theorem claim3_amended_witness :
    (advanceToNextTrack 5 w3x).queue
        = [{ mkTrack "t2" none (some 5) with startTime := some (w3x.clock w3x.timeIdx) }] ∧
    (advanceToNextTrack 5 w3x).stored = none ∧
    (advanceToNextTrack 5 w3x).lock = true :=
  claim3_amended 3 w3x (mkTrack "t1" (some 500) (some 5)) (mkTrack "t2" none (some 5)) [] 5
    rfl rfl rfl rfl (by decide) (by decide) (by decide)

/-- `advanceToNextTrack` on an empty queue changes nothing, whatever the
fuel, the lock or the deletion flag. -/
theorem engineStep_advance_empty (fuel : Nat) (s : LobbyState) (hq : s.queue = []) :
    engineStep fuel EngineMode.advance s = s := by
  cases fuel with
  | zero => rfl
  | succ n => simp [engineStep, hq]

/-- Counterexample to C4 as stated: in `w4x` (queue exactly `[t1]`, timer
handle 7 armed for it), the dj's removal of `t1` empties the queue but does
NOT cancel the AdvanceTimer — the stored handle and the pending timeout
survive, because the handler only cancels when the queue stays non-empty. -/
theorem claim4_counterexample :
    (removerFaixa 3 "a" "t1" w4x).queue = [] ∧
    (removerFaixa 3 "a" "t1" w4x).stored = some 7 ∧
    (removerFaixa 3 "a" "t1" w4x).pending = [⟨7, 11000⟩] := by
  refine ⟨?_, ?_, ?_⟩ <;> decide

/-- Claim C4 amended: removing the single (head) track before its expiry
leaves the queue empty, arms no new timer, but leaves the old AdvanceTimer
in place (stored handle and pending timeout unchanged); when that timer
later fires at the track's original deadline, the advance finds the queue
empty and has no effect — no dequeue and no broadcast — and only then is
the handle discarded. -/
theorem claim4_amended (fuel fuel2 : Nat) (sid : String) (s : LobbyState) (u : User)
    (t : Track) (h : Nat) (dl : Int)
    (hu : findUser s.users sid = some u) (hdj : u.role = UserRole.dj)
    (hq : s.queue = [t]) (hst : s.stored = some h) (hp : s.pending = [⟨h, dl⟩]) :
    (removerFaixa fuel sid t.id s).queue = [] ∧
    (removerFaixa fuel sid t.id s).stored = some h ∧
    (removerFaixa fuel sid t.id s).pending = [⟨h, dl⟩] ∧
    (fireTimer fuel2 h (removerFaixa fuel sid t.id s)).queue = [] ∧
    (fireTimer fuel2 h (removerFaixa fuel sid t.id s)).events
        = (removerFaixa fuel sid t.id s).events ∧
    (fireTimer fuel2 h (removerFaixa fuel sid t.id s)).pending = [] := by
  simp [removerFaixa, fireTimer, advanceToNextTrack, hu, hdj, hq, hst, hp,
    engineStep_advance_empty]

/-- Witness for C4 amended, at the concrete state `w4x`. -/
theorem claim4_amended_witness :
    (removerFaixa 3 "a" "t1" w4x).queue = [] ∧
    (removerFaixa 3 "a" "t1" w4x).stored = some 7 ∧
    (removerFaixa 3 "a" "t1" w4x).pending = [⟨7, 11000⟩] ∧
    (fireTimer 3 7 (removerFaixa 3 "a" "t1" w4x)).queue = [] ∧
    (fireTimer 3 7 (removerFaixa 3 "a" "t1" w4x)).events
        = (removerFaixa 3 "a" "t1" w4x).events ∧
    (fireTimer 3 7 (removerFaixa 3 "a" "t1" w4x)).pending = [] :=
  claim4_amended 3 3 "a" w4x ⟨"a", "Alice", UserRole.dj⟩ (mkTrack "t1" (some 1000) (some 10))
    7 11000 (by decide) rfl rfl rfl rfl

/-- Claim C5 is violated by the code: when the armed timer (handle 0) for
`w5x`'s head fires, the advance inside the callback arms and stores a fresh
timer (handle 1) for the new head, and the callback's trailing map-delete
then discards that fresh handle while its timeout stays outstanding; the
dj's subsequent removal of the new head finds no stored handle, cancels
nothing, and arms handle 2 — leaving TWO outstanding timers for one lobby. -/
theorem claim5_two_outstanding_timers :
    (fireTimer 4 0 w5x).stored = none ∧
    (fireTimer 4 0 w5x).pending.map Timer.id = [1] ∧
    (removerFaixa 4 "a" "t2" (fireTimer 4 0 w5x)).pending.map Timer.id = [1, 2] ∧
    (removerFaixa 4 "a" "t2" (fireTimer 4 0 w5x)).pending.length = 2 := by
  refine ⟨?_, ?_, ?_, ?_⟩ <;> decide

/-- Claim C6 is violated by the code: in `w6x` (two users, timer armed for
the single queued track) Bob's disconnect leaves the lobby non-empty and
the queue untouched, yet the AdvanceTimer is canceled — the handler clears
it unconditionally, against its own `if the lobby became empty` comment. -/
theorem claim6_disconnect_cancels_timer :
    (disconnect "b" w6x).users.length = 1 ∧
    (disconnect "b" w6x).deleted = false ∧
    (disconnect "b" w6x).queue = w6x.queue ∧
    (disconnect "b" w6x).stored = none ∧
    (disconnect "b" w6x).pending = [] := by
  refine ⟨?_, ?_, ?_, ?_, ?_⟩ <;> decide

/-- Claim C7: a dj's successful `adicionar_faixa` appends the track to the
tail of the queue; and when the queue was empty beforehand the new track
becomes head with `startTime` stamped to the current clock reading, and the
scheduler is armed with a timeout due exactly at `startTime + duration*1000`
(duration taken as the track's positive duration, or the 240 s default).
The two clock hypotheses say that both `Date.now()` reads of the add happen
at the same nonzero instant. -/
theorem claim7_add_track (fuel : Nat) (s : LobbyState) (sid : String) (track : Track)
    (u : User)
    (hu : findUser s.users sid = some u) (hdj : u.role = UserRole.dj)
    (hdup : s.queue.any (fun t => t.id == track.id) = false) :
    (s.queue ≠ [] → (adicionarFaixa (fuel + 1) sid track s).queue = s.queue ++ [track]) ∧
    (s.queue = [] → s.clock s.timeIdx ≠ 0 →
      s.clock (s.timeIdx + 1) = s.clock s.timeIdx →
      (adicionarFaixa (fuel + 1) sid track s).queue
          = [{ track with startTime := some (s.clock s.timeIdx), duration := some (effDuration track.duration) }] ∧
      (adicionarFaixa (fuel + 1) sid track s).stored = some s.nextTimerId ∧
      (adicionarFaixa (fuel + 1) sid track s).pending
          = (cancelStoredTimer s).pending
            ++ [⟨s.nextTimerId, s.clock s.timeIdx + 1000 * effDuration track.duration⟩]) := by
  constructor
  · intro hne
    simp [adicionarFaixa, hu, hdj, hdup, hne]
  · intro h0 hn hsame
    have hsf : (s.clock s.timeIdx == 0) = false := by simpa using hn
    cases htd : track.duration with
    | none =>
      have heff : effDuration none = (240 : Int) := by
        simp [effDuration, durationFalsyOrNonpos]
      rw [heff]
      cases hst : s.stored <;>
        simp [adicionarFaixa, hu, hdj, hdup, h0, readNow, stampHead, scheduleTrackAdvance,
          engineStep, cancelStoredTimer, hst, startTimeFalsy, durationFalsyOrNonpos, htd,
          hsf, hsame]
    | some d =>
      by_cases hd0 : d ≤ 0
      · have heff : effDuration (some d) = (240 : Int) := by
          simp [effDuration, durationFalsyOrNonpos, hd0]
        rw [heff]
        cases hst : s.stored <;>
          simp [adicionarFaixa, hu, hdj, hdup, h0, readNow, stampHead, scheduleTrackAdvance,
            engineStep, cancelStoredTimer, hst, startTimeFalsy, durationFalsyOrNonpos, htd,
            hd0, hsf, hsame]
      · have heff : effDuration (some d) = d := by
          simp [effDuration, durationFalsyOrNonpos, hd0]
        rw [heff]
        have hmax : max 0 (1000 * d) = 1000 * d := max_eq_right (by omega)
        have hc2 : ¬ 1000 * d ≤ 0 := by omega
        cases hst : s.stored <;>
          simp [adicionarFaixa, hu, hdj, hdup, h0, readNow, stampHead, scheduleTrackAdvance,
            engineStep, cancelStoredTimer, hst, startTimeFalsy, durationFalsyOrNonpos, htd,
            hd0, hsf, hsame, hmax, hc2]

/-- Witness for C7: the non-empty case on `wTwo`, and the empty-queue case
on `wBase` (Alice adds a 60 s track; timer 0 is armed, due at 61000). -/
theorem claim7_add_track_witness :
    (adicionarFaixa 4 "a" (mkTrack "t9" none (some 60)) wTwo).queue
        = wTwo.queue ++ [mkTrack "t9" none (some 60)] ∧
    (adicionarFaixa 4 "a" (mkTrack "t9" none (some 60)) wBase).queue
        = [{ mkTrack "t9" none (some 60) with startTime := some (wBase.clock wBase.timeIdx), duration := some (effDuration (some 60)) }] ∧
    (adicionarFaixa 4 "a" (mkTrack "t9" none (some 60)) wBase).stored
        = some wBase.nextTimerId ∧
    (adicionarFaixa 4 "a" (mkTrack "t9" none (some 60)) wBase).pending
        = (cancelStoredTimer wBase).pending
          ++ [⟨wBase.nextTimerId, wBase.clock wBase.timeIdx + 1000 * effDuration (some 60)⟩] := by
  refine ⟨?_, ?_⟩
  · exact (claim7_add_track 3 wTwo "a" (mkTrack "t9" none (some 60))
      ⟨"a", "Alice", UserRole.dj⟩ (by decide) rfl (by decide)).1 (by decide)
  · exact (claim7_add_track 3 wBase "a" (mkTrack "t9" none (some 60))
      ⟨"a", "Alice", UserRole.dj⟩ (by decide) rfl (by decide)).2 rfl (by decide) rfl

/-- Counterexample to C8 as stated: in `w8x` the spectator Carol's
`remover_faixa` for the queued track is a complete no-op — the state is
returned unchanged and in particular NO error notification is emitted,
while the claim requires an Unauthorized error for every spectator
`remove_track`. -/
theorem claim8_counterexample :
    removerFaixa 3 "c" "t1" w8x = w8x ∧ (removerFaixa 3 "c" "t1" w8x).events = [] :=
  ⟨rfl, rfl⟩

/-- Claim C8 amended: a spectator's `add_track`/`remove_track` never
mutates the queue; `add_track` sends the sender an Unauthorized error
notification, but `remove_track` is silently ignored — the handler returns
without emitting anything. -/
theorem claim8_amended (fuel : Nat) (sid : String) (s : LobbyState) (track : Track)
    (trackId : String) (u : User)
    (hu : findUser s.users sid = some u) (hrole : u.role = UserRole.spectator) :
    (adicionarFaixa fuel sid track s).queue = s.queue ∧
    (adicionarFaixa fuel sid track s).events
        = s.events ++ [Event.erroLobby "Apenas DJs podem adicionar músicas."] ∧
    removerFaixa fuel sid trackId s = s := by
  have hne : u.role ≠ UserRole.dj := by simp [hrole]
  refine ⟨?_, ?_, ?_⟩ <;> simp [adicionarFaixa, removerFaixa, hu, hne]

/-- Witness for C8 amended: Carol the spectator in `w8x`. -/
theorem claim8_amended_witness :
    (adicionarFaixa 3 "c" (mkTrack "t9" none none) w8x).queue = w8x.queue ∧
    (adicionarFaixa 3 "c" (mkTrack "t9" none none) w8x).events
        = w8x.events ++ [Event.erroLobby "Apenas DJs podem adicionar músicas."] ∧
    removerFaixa 3 "c" "t1" w8x = w8x :=
  claim8_amended 3 "c" w8x (mkTrack "t9" none none) "t1"
    ⟨"c", "Carol", UserRole.spectator⟩ (by decide) rfl

/-- `entrar_lobby` on a live lobby with a valid name appends exactly one
user, whose role is dj iff the lobby currently holds fewer than two djs. -/
theorem entrarLobby_users (sid name : String) (s : LobbyState)
    (hname : jsTrim name ≠ "") (hdel : s.deleted = false) :
    (entrarLobby sid name s).users
        = s.users ++ [⟨sid, jsTrim name,
            if djCount s.users < 2 then UserRole.dj else UserRole.spectator⟩] := by
  simp [entrarLobby, hname, hdel, djCount]

theorem entrarLobby_deleted (sid name : String) (s : LobbyState) :
    (entrarLobby sid name s).deleted = s.deleted := by
  unfold entrarLobby
  split_ifs <;> rfl

theorem rolePattern_succ (n : Nat) :
    rolePattern (n + 1)
      = rolePattern n ++ [if n < 2 then UserRole.dj else UserRole.spectator] := by
  simp [rolePattern, List.range_succ]

theorem rolePattern_countDj (n : Nat) :
    ((rolePattern n).filter (fun r => r == UserRole.dj)).length = min n 2 := by
  induction n with
  | zero => rfl
  | succ m ih =>
    rw [rolePattern_succ]
    by_cases hm : m < 2 <;> simp [List.filter_append, hm, ih] <;> omega

theorem djCount_map_role (users : List User) :
    ((users.map User.role).filter (fun r => r == UserRole.dj)).length = djCount users := by
  rw [List.filter_map]
  simp [djCount, Function.comp_def]

/-- Counterexample to C9 as stated: Alice creates the lobby (dj), Bob joins
(dj), Alice disconnects, and then Carol — the third user ever to join — is
assigned dj, not spectator: interleaving a leave between join attempts
changes the rule's outcome. -/
theorem claim9_counterexample :
    criarLobby "a" "Alice" (fun _ => 1000) = some wCreated ∧
    findUser (entrarLobby "c" "Carol"
        (disconnect "a" (entrarLobby "b" "Bob" wCreated))).users "c"
      = some ⟨"c", "Carol", UserRole.dj⟩ := by
  constructor
  · unfold criarLobby
    rw [if_neg (by decide : ¬ (jsTrim "Alice" = ""))]
    rw [(by decide : jsTrim "Alice" = "Alice")]
    rfl
  · decide

/-- Claim C9 amended: a joiner is assigned dj exactly when the lobby
currently holds fewer than two dj users.  Consequently, on any
departure-free run the creator and the first joiner are dj and every later
joiner is spectator (the `rolePattern`); but a dj's departure between joins
re-opens a dj slot, so interleaving other operations CAN change a later
joiner's role. -/
theorem claim9_amended :
    (∀ (sid name : String) (s : LobbyState), jsTrim name ≠ "" → s.deleted = false →
      (entrarLobby sid name s).users
          = s.users ++ [⟨sid, jsTrim name,
              if djCount s.users < 2 then UserRole.dj else UserRole.spectator⟩]) ∧
    (∀ (joins : List (String × String)) (s : LobbyState), s.deleted = false →
      (∀ p ∈ joins, jsTrim p.2 ≠ "") →
      s.users.map User.role = rolePattern s.users.length →
      (joinAll joins s).users.map User.role
          = rolePattern (s.users.length + joins.length)) := by
  constructor
  · intro sid name s h1 h2
    exact entrarLobby_users sid name s h1 h2
  · intro joins
    induction joins with
    | nil =>
      intro s hdel hv hpat
      simpa [joinAll] using hpat
    | cons p ps ih =>
      intro s hdel hv hpat
      have hname : jsTrim p.2 ≠ "" := hv p (List.mem_cons_self p ps)
      have hstep := entrarLobby_users p.1 p.2 s hname hdel
      have hcnt : djCount s.users = min s.users.length 2 := by
        rw [← djCount_map_role, hpat, rolePattern_countDj]
      have hiff : djCount s.users < 2 ↔ s.users.length < 2 := by
        rw [hcnt]; omega
      have hpat2 : (entrarLobby p.1 p.2 s).users.map User.role
          = rolePattern ((entrarLobby p.1 p.2 s).users.length) := by
        rw [hstep]
        simp only [List.map_append, List.length_append, List.map_cons, List.map_nil,
          List.length_cons, List.length_nil]
        rw [hpat, if_congr hiff rfl rfl, ← rolePattern_succ]
      have hlen : (entrarLobby p.1 p.2 s).users.length = s.users.length + 1 := by
        rw [hstep]; simp
      have hrest := ih (entrarLobby p.1 p.2 s)
        (by rw [entrarLobby_deleted]; exact hdel)
        (fun q hq => hv q (List.mem_cons_of_mem p hq)) hpat2
      have : joinAll (p :: ps) s = joinAll ps (entrarLobby p.1 p.2 s) := rfl
      rw [this, hrest, hlen]
      congr 1
      simp only [List.length_cons]
      omega

/-- Witness for C9 amended: Bob then Carol join Alice's fresh lobby with no
departures; the roles come out `[dj, dj, spectator]`. -/
theorem claim9_amended_witness :
    (joinAll [("b", "Bob"), ("c", "Carol")] wCreated).users.map User.role
        = rolePattern (wCreated.users.length + 2) :=
  (claim9_amended).2 [("b", "Bob"), ("c", "Carol")] wCreated rfl
    (by decide)
    (by decide)

theorem entrarLobby_queue (sid name : String) (s : LobbyState) :
    (entrarLobby sid name s).queue = s.queue := by
  unfold entrarLobby
  split_ifs <;> rfl

theorem disconnect_queue (sid : String) (s : LobbyState) :
    (disconnect sid s).queue = s.queue := by
  unfold disconnect
  cases hf : findUser s.users sid with
  | none => rfl
  | some u =>
    cases hs : s.stored <;> simp [cancelStoredTimer, hs] <;> split_ifs <;> rfl

/-- `scheduleTrackAdvance` keeps the queue ids a sublist of what they were,
so it preserves their distinctness. -/
theorem nodup_queueIds_schedule (fuel : Nat) (s : LobbyState)
    (hn : (queueIds s).Nodup) : (queueIds (scheduleTrackAdvance fuel s)).Nodup :=
  List.Nodup.sublist (engineStep_ids_suffix fuel EngineMode.schedule s).sublist hn

theorem nodup_queueIds_advance (fuel : Nat) (s : LobbyState)
    (hn : (queueIds s).Nodup) : (queueIds (advanceToNextTrack fuel s)).Nodup :=
  List.Nodup.sublist (engineStep_ids_suffix fuel EngineMode.advance s).sublist hn

theorem nodup_queueIds_fireTimer (fuel h : Nat) (s : LobbyState)
    (hn : (queueIds s).Nodup) : (queueIds (fireTimer fuel h s)).Nodup := by
  unfold fireTimer
  split_ifs with hc
  · exact nodup_queueIds_advance fuel _ hn
  · exact hn

theorem nodup_queueIds_musicaTerminou (fuel : Nat) (sid : String) (s : LobbyState)
    (hn : (queueIds s).Nodup) : (queueIds (musicaTerminou fuel sid s)).Nodup := by
  unfold musicaTerminou
  cases hf : findUser s.users sid with
  | none => exact hn
  | some u =>
    split_ifs with hc
    · exact hn
    · exact nodup_queueIds_advance fuel s hn

theorem nodup_ids_append (track : Track) (q : List Track)
    (hn : (q.map Track.id).Nodup) (h2 : ¬ (q.any fun t => t.id == track.id) = true) :
    ((q ++ [track]).map Track.id).Nodup := by
  have hnotin : track.id ∉ q.map Track.id := by
    simp only [List.any_eq_true, beq_iff_eq, not_exists, not_and] at h2
    simp only [List.mem_map, not_exists, not_and]
    intro t ht heq
    exact h2 t ht heq
  rw [List.map_append]
  simp only [List.map_cons, List.map_nil]
  rw [List.nodup_append]
  refine ⟨hn, List.nodup_singleton _, ?_⟩
  intro x hx hx'
  simp only [List.mem_singleton] at hx'
  subst hx'
  exact hnotin hx

theorem nodup_queueIds_adicionar (fuel : Nat) (sid : String) (track : Track)
    (s : LobbyState) (hn : (queueIds s).Nodup) :
    (queueIds (adicionarFaixa fuel sid track s)).Nodup := by
  cases hf : findUser s.users sid with
  | none => simpa [adicionarFaixa, hf, queueIds] using hn
  | some u =>
    simp only [adicionarFaixa, hf, readNow]
    split_ifs with h1 h2 h3
    · exact hn
    · exact hn
    · exact nodup_queueIds_schedule fuel _
        (by simpa [queueIds, stampHead_map_id] using nodup_ids_append track s.queue hn h2)
    · exact nodup_ids_append track s.queue hn h2

theorem nodup_queueIds_remover (fuel : Nat) (sid tid : String) (s : LobbyState)
    (hn : (queueIds s).Nodup) : (queueIds (removerFaixa fuel sid tid s)).Nodup := by
  cases hf : findUser s.users sid with
  | none => simpa [removerFaixa, hf, queueIds] using hn
  | some u =>
    have hfil : ((s.queue.filter (fun t => t.id != tid)).map Track.id).Nodup :=
      List.Nodup.sublist (List.Sublist.map _ (List.filter_sublist _)) hn
    simp only [removerFaixa, hf, readNow]
    split_ifs with h1 h2
    · exact hn
    · exact nodup_queueIds_schedule fuel _
        (by cases hs2 : s.stored <;> simpa [queueIds, stampHead_map_id, hs2] using hfil)
    · exact hfil

theorem criarLobby_queue (sid name : String) (clk : Nat → Int) (s0 : LobbyState)
    (h : criarLobby sid name clk = some s0) : s0.queue = [] := by
  unfold criarLobby at h
  split_ifs at h
  simp only [Option.some.injEq] at h
  subst h
  rfl

theorem nodup_queueIds_applyOp (op : Op) (s : LobbyState)
    (hn : (queueIds s).Nodup) : (queueIds (applyOp op s)).Nodup := by
  cases op with
  | entrar sid name => simpa [applyOp, queueIds, entrarLobby_queue] using hn
  | adicionar fuel sid track => exact nodup_queueIds_adicionar fuel sid track s hn
  | remover fuel sid tid => exact nodup_queueIds_remover fuel sid tid s hn
  | terminou fuel sid => exact nodup_queueIds_musicaTerminou fuel sid s hn
  | fire fuel h => exact nodup_queueIds_fireTimer fuel h s hn
  | disc sid => simpa [applyOp, queueIds, disconnect_queue] using hn
  | coolDown => exact hn

theorem nodup_queueIds_applyOps (ops : List Op) :
    ∀ s : LobbyState, (queueIds s).Nodup → (queueIds (applyOps ops s)).Nodup := by
  induction ops with
  | nil => intro s hn; simpa [applyOps] using hn
  | cons op ops ih => intro s hn; exact ih _ (nodup_queueIds_applyOp op s hn)

/-- Claim C10: queue catalog-id uniqueness is an invariant — every single
operation (join, add with its duplicate-id rejection, remove-all-by-id,
fallback advance, timer fire, disconnect, cool-down expiry) preserves
`Nodup` of the queued ids, and hence every state reachable from a freshly
created lobby has pairwise-distinct queued ids. -/
theorem claim10_queue_id_unique :
    (∀ (op : Op) (s : LobbyState), (queueIds s).Nodup → (queueIds (applyOp op s)).Nodup) ∧
    (∀ (ops : List Op) (sid name : String) (clk : Nat → Int) (s0 : LobbyState),
      criarLobby sid name clk = some s0 → (queueIds (applyOps ops s0)).Nodup) := by
  constructor
  · exact fun op s hn => nodup_queueIds_applyOp op s hn
  · intro ops sid name clk s0 h
    have h0 : (queueIds s0).Nodup := by
      simp [queueIds, criarLobby_queue sid name clk s0 h]
    exact nodup_queueIds_applyOps ops s0 h0

/-- Witness for C10: one preservation step on `wTwo`, and a two-operation
run from Alice's freshly created lobby. -/
theorem claim10_queue_id_unique_witness :
    (queueIds (applyOp (Op.adicionar 3 "a" (mkTrack "t9" none (some 60))) wTwo)).Nodup ∧
    (queueIds (applyOps
        [Op.adicionar 3 "a" (mkTrack "t9" none (some 60)), Op.terminou 3 "a"]
        wCreated)).Nodup :=
  ⟨(claim10_queue_id_unique).1 (Op.adicionar 3 "a" (mkTrack "t9" none (some 60))) wTwo
      (by decide),
   (claim10_queue_id_unique).2
      [Op.adicionar 3 "a" (mkTrack "t9" none (some 60)), Op.terminou 3 "a"]
      "a" "Alice" (fun _ => 1000) wCreated
      (by unfold criarLobby
          rw [if_neg (by decide : ¬ (jsTrim "Alice" = ""))]
          rw [(by decide : jsTrim "Alice" = "Alice")]
          rfl)⟩

end B2B
